import Mathlib

set_option maxHeartbeats 1000000

/-
Shallow embedding of the RTL-SDR scanner firmware (src/Firmware/main.py).
Frequencies are rationals (the Python floats involved are all exactly
representable small decimals), strength values are reals (the meter uses
log10), and the external tuner, sample source and audio sink appear as
explicit parameters or result components.
-/

/-- ServiceType enum, main.py lines 43-49. -/
inductive ServiceType where
  | FM_RADIO
  | AVIATION
  | EMERGENCY
  | AMATEUR
  | POLICE
deriving DecidableEq

/-- ScanMode enum, main.py lines 52-56. -/
inductive ScanMode where
  | MANUAL
  | AUTO_SCAN
  | PRESET_SCAN
deriving DecidableEq

/-- ModulationType enum, main.py lines 59-63. -/
inductive ModulationType where
  | FM
  | AM
  | NFM
deriving DecidableEq

/-- RadioPreset dataclass, main.py lines 66-73. -/
structure RadioPreset where
  frequency : ℚ
  name : String
  service_type : ServiceType
  modulation : ModulationType
  step_size : ℤ := 25000
deriving DecidableEq

/-- RadioState dataclass, main.py lines 76-89, with the source defaults
(88.0e6 is written 88000000). -/
structure RadioState where
  frequency : ℚ := 88000000
  volume : ℤ := 50
  service_type : ServiceType := ServiceType.FM_RADIO
  scan_mode : ScanMode := ScanMode.MANUAL
  preset_bank : ℕ := 0
  current_preset : ℕ := 0
  signal_strength : ℝ := 0
  squelch_level : ℤ := 30
  is_scanning : Bool := false
  is_muted : Bool := false

/-- One entry of the SERVICE_RANGES table: the source stores the tuple
(min_freq, max_freq, step, modulation). -/
structure ServiceBand where
  min_freq : ℚ
  max_freq : ℚ
  step : ℚ
  modulation : ModulationType
deriving DecidableEq

/-- SERVICE_RANGES table, main.py lines 116-122 (frequencies written out:
88.0e6 is 88000000 and so on). -/
def SERVICE_RANGES : ServiceType → ServiceBand
  | ServiceType.FM_RADIO => ⟨88000000, 108000000, 100000, ModulationType.FM⟩
  | ServiceType.AVIATION => ⟨118000000, 137000000, 25000, ModulationType.AM⟩
  | ServiceType.EMERGENCY => ⟨146000000, 174000000, 12500, ModulationType.NFM⟩
  | ServiceType.AMATEUR => ⟨144000000, 148000000, 25000, ModulationType.FM⟩
  | ServiceType.POLICE => ⟨400000000, 470000000, 12500, ModulationType.NFM⟩

/-- Mean power of a chunk: np.mean(np.abs(samples) ** 2), main.py line 577. -/
noncomputable def meanPower (chunk : List ℂ) : ℝ :=
  ((chunk.map (fun z => Complex.abs z ^ 2)).sum) / chunk.length

/-- Value computed and returned by a successful _get_signal_strength read,
main.py lines 576-585: 10 * log10(power) + 30, offset by 100 and clamped to
[0, 100] when power is positive, and 0.0 otherwise. -/
noncomputable def signalStrengthOf (chunk : List ℂ) : ℝ :=
  let power := meanPower chunk
  if power > 0 then
    let signal_strength := 10 * Real.logb 10 power + 30
    max 0 (min 100 (signal_strength + 100))
  else 0

/-- Outcome of one _get_signal_strength call (main.py lines 569-589): `fail`
covers the no-SDR early return and a raising read_samples (both return 0.0
without touching the state), `ok v` covers a successful read, where v is the
value both stored into state.signal_strength and returned. -/
inductive Meas where
  | fail
  | ok (v : ℝ)

/-- The measurement a scan tick sees when the sample source delivers `some
chunk`, or fails / is absent (`none`). -/
noncomputable def getSignalStrengthMeas (r : Option (List ℂ)) : Meas :=
  match r with
  | Option.none => Meas.fail
  | Option.some chunk => Meas.ok (signalStrengthOf chunk)

/-- The float value _get_signal_strength returns for a given outcome. -/
def measValue : Meas → ℝ
  | Meas.fail => 0
  | Meas.ok v => v

/-- The state write _get_signal_strength performs: a failed call returns
before the assignment on line 581/583, a successful call stores the value. -/
def applyMeas : Meas → RadioState → RadioState
  | Meas.fail, s => s
  | Meas.ok v, s => { s with signal_strength := v }

/-- _tune_frequency, main.py lines 407-422: step by the band step, clamp to
the band range, retune only when the frequency actually changed. The second
component is the center-frequency command issued to the tuner, if any. -/
def tuneFrequency (direction : ℤ) (s : RadioState) : RadioState × Option ℚ :=
  let band := SERVICE_RANGES s.service_type
  let new_freq0 := s.frequency + direction * band.step
  let new_freq := max band.min_freq (min band.max_freq new_freq0)
  if new_freq ≠ s.frequency then
    ({ s with frequency := new_freq }, Option.some new_freq)
  else (s, Option.none)

/-- _auto_scan, main.py lines 517-539. The tick measures signal strength
(outcome `m`), holds when the measured value is strictly above the squelch
level, and otherwise advances by the band step, wrapping to the band minimum
when the sum exceeds the band maximum. The frequency field is assigned
before the tuner retune; when the retune raises, the except block on line
538 only logs and returns, so the resulting state does not depend on
`retuneOk` (only the trailing sleep is skipped). The second component is the
center-frequency command issued to the tuner, if any. -/
noncomputable def autoScan (m : Meas) (retuneOk : Bool) (s : RadioState) :
    RadioState × Option ℚ :=
  let band := SERVICE_RANGES s.service_type
  let s1 := applyMeas m s
  if measValue m > (s1.squelch_level : ℝ) then (s1, Option.none)
  else
    let new_freq0 := s1.frequency + band.step
    let new_freq := if new_freq0 > band.max_freq then band.min_freq else new_freq0
    ({ s1 with frequency := new_freq }, Option.some new_freq)

/-- _preset_scan, main.py lines 541-567. A missing or empty bank returns
before any measurement or mutation; otherwise the tick measures signal
strength, holds when above squelch, and else advances the preset index
modulo the bank length and jumps to that preset frequency. As in autoScan,
the frequency assignment precedes the retune, so the state does not depend
on `retuneOk`. -/
noncomputable def presetScan (presets : ℕ → Option (List RadioPreset))
    (m : Meas) (retuneOk : Bool) (s : RadioState) : RadioState × Option ℚ :=
  match presets s.preset_bank with
  | Option.none => (s, Option.none)
  | Option.some ps =>
    if hps : ps.length = 0 then (s, Option.none)
    else
      let s1 := applyMeas m s
      if measValue m > (s1.squelch_level : ℝ) then (s1, Option.none)
      else
        let idx := (s1.current_preset + 1) % ps.length
        let preset := ps.get ⟨idx, Nat.mod_lt _ (Nat.pos_of_ne_zero hps)⟩
        ({ s1 with current_preset := idx, frequency := preset.frequency },
          Option.some preset.frequency)

/-- Successor in list(ServiceType) order, main.py lines 460-462. -/
def nextService : ServiceType → ServiceType
  | ServiceType.FM_RADIO => ServiceType.AVIATION
  | ServiceType.AVIATION => ServiceType.EMERGENCY
  | ServiceType.EMERGENCY => ServiceType.AMATEUR
  | ServiceType.AMATEUR => ServiceType.POLICE
  | ServiceType.POLICE => ServiceType.FM_RADIO

/-- _cycle_service_type, main.py lines 457-472: advance to the next service
and move the frequency to the minimum of the new band (the _setup_sdr call
then retunes to that frequency, the second component). -/
def cycleServiceType (s : RadioState) : RadioState × Option ℚ :=
  let st := nextService s.service_type
  let mn := (SERVICE_RANGES st).min_freq
  ({ s with service_type := st, frequency := mn }, Option.some mn)

/-- The spec invariant on the frequency field: it lies within the active
band of SERVICE_RANGES. -/
def freqInv (s : RadioState) : Prop :=
  (SERVICE_RANGES s.service_type).min_freq ≤ s.frequency ∧
    s.frequency ≤ (SERVICE_RANGES s.service_type).max_freq

/-- The all-defaults radio state (python RadioState()). -/
def initState : RadioState := {}

/-- A radio state with squelch level 50, used for the squelch examples. -/
def state50 : RadioState := { squelch_level := 50 }

/-- The default FM preset bank 0 of _create_default_config, main.py lines
255-259 (93.5e6 = 93500000 and so on). -/
def fmBank : List RadioPreset :=
  [⟨93500000, "FM Rainbow", ServiceType.FM_RADIO, ModulationType.FM, 25000⟩,
   ⟨98300000, "Radio Mirchi", ServiceType.FM_RADIO, ModulationType.FM, 25000⟩,
   ⟨104000000, "Red FM", ServiceType.FM_RADIO, ModulationType.FM, 25000⟩]

/-- A preset table whose bank 0 is the default FM bank. -/
def presets0 : ℕ → Option (List RadioPreset) :=
  fun b => if b = 0 then Option.some fmBank else Option.none

/-- The aviation guard preset of default bank 1 (121.5e6 = 121500000),
main.py line 261. -/
def aviationPreset : RadioPreset :=
  ⟨121500000, "Emergency", ServiceType.AVIATION, ModulationType.AM, 25000⟩

/-- A preset table whose bank 0 holds one aviation preset, as arises after
loading a config whose bank set under the current bank index contains
out-of-band entries. -/
def aviationBank : ℕ → Option (List RadioPreset) :=
  fun b => if b = 0 then Option.some [aviationPreset] else Option.none

/-- np.diff, as used on the unwrapped phase: successive differences. -/
def npDiff : List ℝ → List ℝ
  | x :: y :: rest => (y - x) :: npDiff (y :: rest)
  | _ => []

/-- Real modulus a - b * floor(a / b), the numpy mod on floats. -/
noncomputable def realMod (a b : ℝ) : ℝ := a - b * ⌊a / b⌋

/-- The numpy unwrap adjustment of one raw phase difference d:
mod(d + pi, 2 pi) - pi, with the boundary case -pi mapped to pi when d is
positive. -/
noncomputable def wrapToPi (d : ℝ) : ℝ :=
  let dm := realMod (d + Real.pi) (2 * Real.pi) - Real.pi
  if dm = -Real.pi ∧ d > 0 then Real.pi else dm

/-- Effect of np.unwrap on one step: differences smaller than the default
discontinuity pi are kept, larger ones are wrapped into the principal
range. -/
noncomputable def unwrapStep (d : ℝ) : ℝ :=
  if |d| < Real.pi then d else wrapToPi d

/-- Tail worker for np.unwrap: prevRaw is the previous raw angle, prevUp the
previous unwrapped angle (raw angle plus cumulative correction). -/
noncomputable def npUnwrapGo (prevRaw prevUp : ℝ) : List ℝ → List ℝ
  | [] => []
  | x :: rest =>
    let u := prevUp + unwrapStep (x - prevRaw)
    u :: npUnwrapGo x u rest

/-- np.unwrap with the default discontinuity pi: the first angle is kept and
every later angle carries the cumulative 2-pi corrections. -/
noncomputable def npUnwrap : List ℝ → List ℝ
  | [] => []
  | x :: rest => x :: npUnwrapGo x x rest

/-- The FM discriminator of _demodulate_fm, main.py lines 636-639:
np.diff(np.unwrap(np.angle(samples))). np.angle is Complex.arg. Each call
starts from the raw per-chunk angles: no state is carried across chunks. -/
noncomputable def fmDeviation (samples : List ℂ) : List ℝ :=
  npDiff (npUnwrap (samples.map Complex.arg))

/-- AUDIO_RATE, main.py line 113. -/
def AUDIO_RATE : ℝ := 48000

/-- tau = 75e-6, main.py line 644. -/
noncomputable def deemphTau : ℝ := 75 / 1000000

/-- alpha = 1 - exp(-1 / (AUDIO_RATE * tau)), main.py line 645. -/
noncomputable def deemphAlpha : ℝ :=
  1 - Real.exp (-1 / (AUDIO_RATE * deemphTau))

/-- lfilter([alpha], [1, alpha - 1], x), main.py line 646: the single-pole
de-emphasis y[n] = alpha * x[n] + (1 - alpha) * y[n-1] with zero initial
filter state on every call. -/
noncomputable def lfilterDeemph (alpha : ℝ) : ℝ → List ℝ → List ℝ
  | _, [] => []
  | yprev, x :: rest =>
    let y := alpha * x + (1 - alpha) * yprev
    y :: lfilterDeemph alpha y rest

/-- _demodulate_fm, main.py lines 632-648, with the external
scipy.signal.decimate call abstracted as the parameter dec (both pipelines
call it identically): discriminate, decimate, de-emphasize. -/
noncomputable def demodulateFm (dec : List ℝ → List ℝ) (samples : List ℂ) :
    List ℝ :=
  lfilterDeemph deemphAlpha 0 (dec (fmDeviation samples))

/-- _demodulate_nfm, main.py lines 671-681: discriminate, scale the
deviation by 0.5, decimate. There is no de-emphasis stage. -/
noncomputable def demodulateNfm (dec : List ℝ → List ℝ) (samples : List ℂ) :
    List ℝ :=
  dec ((fmDeviation samples).map (fun d => d * (1 / 2)))

/-- Spec-side pipeline for the refinement claim: identical to FM, including
the de-emphasis stage, with the differentiated deviation scaled by 0.5
before decimation. -/
noncomputable def demodulateNfmSpec (dec : List ℝ → List ℝ)
    (samples : List ℂ) : List ℝ :=
  lfilterDeemph deemphAlpha 0 (dec ((fmDeviation samples).map (fun d => d * (1 / 2))))

/-- The volume scaling of _audio_worker, main.py line 606:
audio_data * (volume / 100). -/
noncomputable def audioVolumeScale (volume : ℤ) (x : ℝ) : ℝ :=
  x * ((volume : ℝ) / 100)

/-- float to integer conversion of numpy astype: truncation toward zero. -/
noncomputable def truncToInt (x : ℝ) : ℤ := if 0 ≤ x then ⌊x⌋ else ⌈x⌉

/-- Reduction of an integer into the int16 range the way a numpy astype
int16 narrows: take the value modulo 2^16 into [-32768, 32767]. -/
def wrapInt16 (n : ℤ) : ℤ := (n + 32768) % 65536 - 32768

/-- The stored int16 sample of _audio_worker line 608:
(scaled_sample * 32767) narrowed to int16. -/
noncomputable def pcmInt16 (volume : ℤ) (x : ℝ) : ℤ :=
  wrapInt16 (truncToInt (audioVolumeScale volume x * 32767))

/-- Spec-side clamp of a sample to [-1, 1]; the code has no such stage. -/
noncomputable def clampUnit (x : ℝ) : ℝ := max (-1) (min 1 x)

instance (s : RadioState) : Decidable (freqInv s) := by
  unfold freqInv
  infer_instance

@[simp]
lemma applyMeas_frequency (m : Meas) (s : RadioState) :
    (applyMeas m s).frequency = s.frequency := by
  cases m <;> rfl

@[simp]
lemma applyMeas_squelch_level (m : Meas) (s : RadioState) :
    (applyMeas m s).squelch_level = s.squelch_level := by
  cases m <;> rfl

@[simp]
lemma applyMeas_current_preset (m : Meas) (s : RadioState) :
    (applyMeas m s).current_preset = s.current_preset := by
  cases m <;> rfl

@[simp]
lemma applyMeas_service_type (m : Meas) (s : RadioState) :
    (applyMeas m s).service_type = s.service_type := by
  cases m <;> rfl

@[simp]
lemma applyMeas_preset_bank (m : Meas) (s : RadioState) :
    (applyMeas m s).preset_bank = s.preset_bank := by
  cases m <;> rfl

@[simp]
lemma applyMeas_is_scanning (m : Meas) (s : RadioState) :
    (applyMeas m s).is_scanning = s.is_scanning := by
  cases m <;> rfl

lemma band_min_le_max (st : ServiceType) :
    (SERVICE_RANGES st).min_freq ≤ (SERVICE_RANGES st).max_freq := by
  cases st <;> decide

lemma band_step_pos (st : ServiceType) : 0 < (SERVICE_RANGES st).step := by
  cases st <;> decide

lemma npDiff_length (l : List ℝ) : (npDiff l).length = l.length - 1 := by
  induction l with
  | nil => rfl
  | cons x rest ih =>
    cases rest with
    | nil => rfl
    | cons y r => simpa [npDiff] using ih

lemma npUnwrapGo_length (l : List ℝ) :
    ∀ pr pu, (npUnwrapGo pr pu l).length = l.length := by
  induction l with
  | nil => intro pr pu; rfl
  | cons x rest ih => intro pr pu; simp [npUnwrapGo, ih]

lemma npUnwrap_length (l : List ℝ) : (npUnwrap l).length = l.length := by
  cases l with
  | nil => rfl
  | cons x rest => simp [npUnwrap, npUnwrapGo_length]

lemma fmDeviation_length (samples : List ℂ) :
    (fmDeviation samples).length = samples.length - 1 := by
  simp [fmDeviation, npDiff_length, npUnwrap_length]

lemma npDiff_npUnwrapGo (l : List ℝ) :
    ∀ pr pu, npDiff (pu :: npUnwrapGo pr pu l) =
      (npDiff (pr :: l)).map unwrapStep := by
  induction l with
  | nil => intro pr pu; rfl
  | cons x rest ih =>
    intro pr pu
    simp only [npUnwrapGo, npDiff, List.map_cons]
    congr 1
    · ring
    · exact ih x (pu + unwrapStep (x - pr))

/-- Differencing the unwrapped phase equals wrapping each raw phase
difference: the per-chunk unwrap restart only shifts later angles by a
constant, which the difference cancels. -/
lemma npDiff_npUnwrap (l : List ℝ) :
    npDiff (npUnwrap l) = (npDiff l).map unwrapStep := by
  cases l with
  | nil => rfl
  | cons x rest => simpa [npUnwrap] using npDiff_npUnwrapGo rest x x

lemma npDiff_append (x : ℝ) (xs : List ℝ) (y : ℝ) (ys : List ℝ) :
    npDiff ((x :: xs) ++ y :: ys) =
      npDiff (x :: xs) ++
        (y - (x :: xs).getLast (List.cons_ne_nil x xs)) :: npDiff (y :: ys) := by
  induction xs generalizing x with
  | nil => simp [npDiff]
  | cons x2 rest ih =>
    simp only [List.cons_append, npDiff]
    rw [show (x :: x2 :: rest).getLast (List.cons_ne_nil x (x2 :: rest)) =
          (x2 :: rest).getLast (List.cons_ne_nil x2 rest) from
        List.getLast_cons (List.cons_ne_nil x2 rest)]
    simpa using ih x2

lemma getLast_map_arg (x : ℂ) (xs : List ℂ) :
    (Complex.arg x :: xs.map Complex.arg).getLast (List.cons_ne_nil _ _) =
      Complex.arg ((x :: xs).getLast (List.cons_ne_nil x xs)) := by
  induction xs generalizing x with
  | nil => rfl
  | cons x2 rest ih =>
    have h1 : (Complex.arg x :: (x2 :: rest).map Complex.arg).getLast
        (List.cons_ne_nil _ _) =
        (Complex.arg x2 :: rest.map Complex.arg).getLast
          (List.cons_ne_nil _ _) := by
      simp only [List.map_cons]
      exact List.getLast_cons (List.cons_ne_nil _ _)
    have h2 : (x :: x2 :: rest).getLast (List.cons_ne_nil x (x2 :: rest)) =
        (x2 :: rest).getLast (List.cons_ne_nil x2 rest) :=
      List.getLast_cons (List.cons_ne_nil x2 rest)
    rw [h1, h2]
    exact ih x2

lemma freqInv_applyMeas (m : Meas) (s : RadioState) :
    freqInv (applyMeas m s) ↔ freqInv s := by
  cases m <;> exact Iff.rfl

lemma autoScan_hold (m : Meas) (rOk : Bool) (s : RadioState)
    (hsq : measValue m > (s.squelch_level : ℝ)) :
    autoScan m rOk s = (applyMeas m s, Option.none) := by
  simp [autoScan, hsq]

lemma autoScan_advance (m : Meas) (rOk : Bool) (s : RadioState)
    (hsq : ¬ measValue m > (s.squelch_level : ℝ)) :
    autoScan m rOk s =
      ({ applyMeas m s with frequency :=
          if s.frequency + (SERVICE_RANGES s.service_type).step >
              (SERVICE_RANGES s.service_type).max_freq
          then (SERVICE_RANGES s.service_type).min_freq
          else s.frequency + (SERVICE_RANGES s.service_type).step },
        Option.some
          (if s.frequency + (SERVICE_RANGES s.service_type).step >
              (SERVICE_RANGES s.service_type).max_freq
          then (SERVICE_RANGES s.service_type).min_freq
          else s.frequency + (SERVICE_RANGES s.service_type).step)) := by
  simp [autoScan, hsq]

lemma autoScan_retune_independent (m : Meas) (rOk rOk2 : Bool)
    (s : RadioState) : autoScan m rOk s = autoScan m rOk2 s := rfl

lemma presetScan_retune_independent (P : ℕ → Option (List RadioPreset))
    (m : Meas) (rOk rOk2 : Bool) (s : RadioState) :
    presetScan P m rOk s = presetScan P m rOk2 s := rfl

lemma presetScan_no_bank (P : ℕ → Option (List RadioPreset)) (m : Meas)
    (rOk : Bool) (s : RadioState) (h : P s.preset_bank = Option.none) :
    presetScan P m rOk s = (s, Option.none) := by
  simp [presetScan, h]

lemma presetScan_empty_bank (P : ℕ → Option (List RadioPreset)) (m : Meas)
    (rOk : Bool) (s : RadioState) (h : P s.preset_bank = Option.some []) :
    presetScan P m rOk s = (s, Option.none) := by
  simp [presetScan, h]

lemma presetScan_hold (P : ℕ → Option (List RadioPreset)) (m : Meas)
    (rOk : Bool) (s : RadioState) (ps : List RadioPreset)
    (hP : P s.preset_bank = Option.some ps) (hne : ps.length ≠ 0)
    (hsq : measValue m > (s.squelch_level : ℝ)) :
    presetScan P m rOk s = (applyMeas m s, Option.none) := by
  simp [presetScan, hP, hne, hsq]

lemma presetScan_advance_eq (P : ℕ → Option (List RadioPreset)) (m : Meas)
    (rOk : Bool) (s : RadioState) (ps : List RadioPreset)
    (hP : P s.preset_bank = Option.some ps) (hne : ps.length ≠ 0)
    (hsq : ¬ measValue m > (s.squelch_level : ℝ)) :
    presetScan P m rOk s =
      ({ applyMeas m s with
          current_preset := (s.current_preset + 1) % ps.length,
          frequency := (ps.get ⟨(s.current_preset + 1) % ps.length,
            Nat.mod_lt _ (Nat.pos_of_ne_zero hne)⟩).frequency },
        Option.some (ps.get ⟨(s.current_preset + 1) % ps.length,
          Nat.mod_lt _ (Nat.pos_of_ne_zero hne)⟩).frequency) := by
  simp [presetScan, hP, hne, hsq]

lemma tuneFrequency_fst (d : ℤ) (s : RadioState) :
    (tuneFrequency d s).1 = s ∨
    (tuneFrequency d s).1 =
      { s with frequency :=
          (max (SERVICE_RANGES s.service_type).min_freq
            (min (SERVICE_RANGES s.service_type).max_freq
              (s.frequency + d * (SERVICE_RANGES s.service_type).step))) } := by
  unfold tuneFrequency
  dsimp only
  split_ifs with h
  · right; rfl
  · left; rfl

/-- Claim C6: on every auto-scan tick, a measured signal strength strictly
above the squelch level leaves the frequency unchanged (hold); otherwise
the frequency becomes frequency + step, except that when that sum exceeds
the band maximum the frequency becomes the band minimum (wrap). -/
theorem C6_autoScan_squelch_step (s : RadioState) (m : Meas) (rOk : Bool) :
    (measValue m > (s.squelch_level : ℝ) →
      (autoScan m rOk s).1.frequency = s.frequency) ∧
    (¬ measValue m > (s.squelch_level : ℝ) →
      (autoScan m rOk s).1.frequency =
        (if s.frequency + (SERVICE_RANGES s.service_type).step >
            (SERVICE_RANGES s.service_type).max_freq
         then (SERVICE_RANGES s.service_type).min_freq
         else s.frequency + (SERVICE_RANGES s.service_type).step)) := by
  constructor
  · intro h
    rw [autoScan_hold m rOk s h]
    exact applyMeas_frequency m s
  · intro h
    rw [autoScan_advance m rOk s h]

/-- Witness for C6: with squelch level 50, a measured strength of 60 holds
the frequency, and a measured strength of 40 advances it by exactly the
100 kHz FM step (no wrap: 88.1 MHz is within the band). -/
theorem C6_autoScan_squelch_step_witness :
    measValue (Meas.ok 60) > (state50.squelch_level : ℝ) ∧
    (autoScan (Meas.ok 60) true state50).1.frequency = state50.frequency ∧
    ¬ measValue (Meas.ok 40) > (state50.squelch_level : ℝ) ∧
    (autoScan (Meas.ok 40) true state50).1.frequency =
      state50.frequency + (SERVICE_RANGES state50.service_type).step := by
  have h60 : measValue (Meas.ok 60) > (state50.squelch_level : ℝ) := by
    norm_num [measValue, state50]
  have h40 : ¬ measValue (Meas.ok 40) > (state50.squelch_level : ℝ) := by
    norm_num [measValue, state50]
  refine ⟨h60, (C6_autoScan_squelch_step state50 (Meas.ok 60) true).1 h60,
    h40, ?_⟩
  rw [(C6_autoScan_squelch_step state50 (Meas.ok 40) true).2 h40]
  norm_num [state50, SERVICE_RANGES]

/-- Claim C8: a preset-scan tick whose current bank is absent or empty
leaves the entire state unchanged across any number of ticks, and no retune
is issued. -/
theorem C8_presetScan_empty_noop (P : ℕ → Option (List RadioPreset))
    (m : Meas) (rOk : Bool) (s : RadioState)
    (h : P s.preset_bank = Option.none ∨ P s.preset_bank = Option.some []) :
    presetScan P m rOk s = (s, Option.none) ∧
    ∀ n : ℕ, (fun st => (presetScan P m rOk st).1)^[n] s = s := by
  have h1 : presetScan P m rOk s = (s, Option.none) := by
    rcases h with h | h
    · exact presetScan_no_bank P m rOk s h
    · exact presetScan_empty_bank P m rOk s h
  refine ⟨h1, fun n => Function.iterate_fixed ?_ n⟩
  simp [h1]

/-- Witness for C8: with no banks at all, five consecutive preset-scan
ticks leave the default state untouched and never issue a retune. -/
theorem C8_presetScan_empty_noop_witness :
    presetScan (fun _ => Option.none) Meas.fail true initState =
      (initState, Option.none) ∧
    (fun st => (presetScan (fun _ => Option.none) Meas.fail true st).1)^[5]
      initState = initState := by
  have h := C8_presetScan_empty_noop (fun _ => Option.none) Meas.fail true
    initState (Or.inl rfl)
  exact ⟨h.1, h.2 5⟩

/-- Claim C10: a failed signal-strength measurement returns exactly 0 and
leaves the stored signal_strength field unchanged; since 0 is never
strictly greater than a non-negative squelch level, an auto-scan tick on a
failed measurement treats the channel as unoccupied and advances. -/
theorem C10_failed_measurement_advances (s : RadioState) (rOk : Bool)
    (h : 0 ≤ s.squelch_level) :
    measValue (getSignalStrengthMeas Option.none) = 0 ∧
    applyMeas (getSignalStrengthMeas Option.none) s = s ∧
    (autoScan (getSignalStrengthMeas Option.none) rOk s).1.signal_strength =
      s.signal_strength ∧
    (autoScan (getSignalStrengthMeas Option.none) rOk s).1.frequency =
      (if s.frequency + (SERVICE_RANGES s.service_type).step >
          (SERVICE_RANGES s.service_type).max_freq
       then (SERVICE_RANGES s.service_type).min_freq
       else s.frequency + (SERVICE_RANGES s.service_type).step) := by
  have hm : getSignalStrengthMeas Option.none = Meas.fail := rfl
  have hg : ¬ measValue (getSignalStrengthMeas Option.none) >
      (s.squelch_level : ℝ) := by
    rw [hm]
    simp only [measValue, gt_iff_lt, not_lt]
    exact_mod_cast h
  refine ⟨rfl, rfl, ?_, ?_⟩
  · rw [autoScan_advance _ rOk s hg, hm]
    rfl
  · rw [autoScan_advance _ rOk s hg]

/-- Witness for C10: at the default state (squelch 30), a failed
measurement reads as 0, mutates nothing, and the auto-scan tick advances
from 88.0 MHz to 88.1 MHz. -/
theorem C10_failed_measurement_advances_witness :
    measValue (getSignalStrengthMeas Option.none) = 0 ∧
    applyMeas (getSignalStrengthMeas Option.none) initState = initState ∧
    (autoScan (getSignalStrengthMeas Option.none) true initState).1.frequency
      = 88100000 := by
  have h := C10_failed_measurement_advances initState true (by decide)
  refine ⟨h.1, h.2.1, ?_⟩
  rw [h.2.2.2]
  norm_num [initState, SERVICE_RANGES]

/-- Claim C2 fails on the code: _auto_scan assigns state.frequency before
the tuner retune, so a tick whose retune fails is not a no-op on
RadioState: here the frequency has moved off its pre-tick value. -/
theorem C2_retune_failure_counterexample :
    (autoScan Meas.fail false initState).1.frequency ≠
      initState.frequency := by
  have hg : ¬ measValue Meas.fail > (initState.squelch_level : ℝ) := by
    norm_num [measValue, initState]
  rw [autoScan_advance Meas.fail false initState hg]
  norm_num [applyMeas, initState, SERVICE_RANGES]

/-- Claim C2 amended: on every advancing scan tick whose retune fails, the
frequency field equals the newly advanced frequency (the assignment
precedes the retune), the resulting state is identical to that of a tick
whose retune succeeds, and the worker loop does not terminate (the error is
caught and is_scanning is untouched). -/
theorem C2_retune_failure_amended (s : RadioState) (m : Meas)
    (hsq : ¬ measValue m > (s.squelch_level : ℝ)) :
    (autoScan m false s).1.frequency =
      (if s.frequency + (SERVICE_RANGES s.service_type).step >
          (SERVICE_RANGES s.service_type).max_freq
       then (SERVICE_RANGES s.service_type).min_freq
       else s.frequency + (SERVICE_RANGES s.service_type).step) ∧
    (autoScan m false s).1.is_scanning = s.is_scanning ∧
    autoScan m false s = autoScan m true s ∧
    (∀ P : ℕ → Option (List RadioPreset),
      presetScan P m false s = presetScan P m true s) := by
  refine ⟨?_, ?_, autoScan_retune_independent m false true s,
    fun P => presetScan_retune_independent P m false true s⟩
  · rw [autoScan_advance m false s hsq]
  · rw [autoScan_advance m false s hsq]
    exact applyMeas_is_scanning m s

/-- Witness for C2 amended: a failing retune at the default state still
leaves the advanced frequency 88.1 MHz in place and the tick equals a
successful one. -/
theorem C2_retune_failure_amended_witness :
    (autoScan Meas.fail false initState).1.frequency = 88100000 ∧
    autoScan Meas.fail false initState = autoScan Meas.fail true initState := by
  have hg : ¬ measValue Meas.fail > (initState.squelch_level : ℝ) := by
    norm_num [measValue, initState]
  have h := C2_retune_failure_amended initState Meas.fail hg
  refine ⟨?_, h.2.2.1⟩
  rw [h.1]
  norm_num [initState, SERVICE_RANGES]

/-- Claim C7: on every unoccupied preset-scan tick over a non-empty bank of
n presets, the preset index becomes (index + 1) mod n and the frequency
becomes the frequency of that preset. -/
theorem C7_presetScan_advance (P : ℕ → Option (List RadioPreset))
    (s : RadioState) (m : Meas) (rOk : Bool) (ps : List RadioPreset)
    (hP : P s.preset_bank = Option.some ps) (hne : ps.length ≠ 0)
    (hsq : ¬ measValue m > (s.squelch_level : ℝ)) :
    (presetScan P m rOk s).1.current_preset =
      (s.current_preset + 1) % ps.length ∧
    (presetScan P m rOk s).1.frequency =
      (ps.get ⟨(s.current_preset + 1) % ps.length,
        Nat.mod_lt _ (Nat.pos_of_ne_zero hne)⟩).frequency := by
  rw [presetScan_advance_eq P m rOk s ps hP hne hsq]
  exact ⟨rfl, rfl⟩

/-- Witness for C7: over the default 3-entry FM bank, three unoccupied
ticks advance the preset index 0, 1, 2 and back to 0, with the frequency
following the presets. -/
theorem C7_presetScan_advance_witness :
    (presetScan presets0 Meas.fail true initState).1.current_preset = 1 ∧
    (presetScan presets0 Meas.fail true
      (presetScan presets0 Meas.fail true initState).1).1.current_preset = 2 ∧
    (presetScan presets0 Meas.fail true
      (presetScan presets0 Meas.fail true
        (presetScan presets0 Meas.fail true
          initState).1).1).1.current_preset = 0 := by
  have hsq : ∀ s : RadioState, s.squelch_level = 30 →
      ¬ measValue Meas.fail > (s.squelch_level : ℝ) := by
    intro s hs
    rw [hs]
    norm_num [measValue]
  have h1 : (presetScan presets0 Meas.fail true initState).1 =
      { initState with current_preset := 1, frequency := 98300000 } := by
    rw [presetScan_advance_eq presets0 Meas.fail true initState fmBank rfl
      (by decide) (hsq initState rfl)]
    rfl
  have h2 : (presetScan presets0 Meas.fail true
      ({ initState with current_preset := 1, frequency := 98300000 })).1 =
      { initState with current_preset := 2, frequency := 104000000 } := by
    rw [presetScan_advance_eq presets0 Meas.fail true
      ({ initState with current_preset := 1, frequency := 98300000 }) fmBank
      rfl (by decide) (hsq _ rfl)]
    rfl
  have h3 : (presetScan presets0 Meas.fail true
      ({ initState with current_preset := 2, frequency := 104000000 })).1 =
      { initState with current_preset := 0, frequency := 93500000 } := by
    rw [presetScan_advance_eq presets0 Meas.fail true
      ({ initState with current_preset := 2, frequency := 104000000 }) fmBank
      rfl (by decide) (hsq _ rfl)]
    rfl
  refine ⟨?_, ?_, ?_⟩
  · rw [(C7_presetScan_advance presets0 initState Meas.fail true fmBank rfl
      (by decide) (hsq initState rfl)).1]
    decide
  · rw [h1, h2]
  · rw [h1, h2, h3]

/-- Claim C1 fails on the code: _preset_scan assigns the selected preset
frequency without consulting SERVICE_RANGES, so a tick over a bank holding
an out-of-band preset moves the frequency outside the active band: from the
default state (FM band, 88.0 MHz) one unoccupied tick over a bank holding
the 121.5 MHz aviation preset lands on 121.5 MHz, outside [88, 108] MHz. -/
theorem C1_freq_invariant_counterexample :
    freqInv initState ∧
    ¬ freqInv (presetScan aviationBank Meas.fail true initState).1 := by
  have hsq : ¬ measValue Meas.fail > (initState.squelch_level : ℝ) := by
    norm_num [measValue, initState]
  constructor
  · norm_num [freqInv, initState, SERVICE_RANGES]
  · rw [presetScan_advance_eq aviationBank Meas.fail true initState
      [aviationPreset] rfl (by decide) hsq]
    norm_num [freqInv, initState, SERVICE_RANGES, applyMeas, aviationPreset,
      List.get]

/-- Claim C1 amended: the frequency invariant is preserved by manual tune,
auto-scan advance/wrap and service-type cycle unconditionally, and by a
preset-scan tick provided every preset of the current bank lies within the
active band (which the code never checks). -/
theorem C1_freq_invariant_amended (s : RadioState) (d : ℤ) (m : Meas)
    (rOk : Bool) (P : ℕ → Option (List RadioPreset)) (hinv : freqInv s)
    (hbank : ∀ ps, P s.preset_bank = Option.some ps → ∀ p ∈ ps,
      (SERVICE_RANGES s.service_type).min_freq ≤ p.frequency ∧
        p.frequency ≤ (SERVICE_RANGES s.service_type).max_freq) :
    freqInv (tuneFrequency d s).1 ∧ freqInv (autoScan m rOk s).1 ∧
    freqInv (cycleServiceType s).1 ∧ freqInv (presetScan P m rOk s).1 := by
  refine ⟨?_, ?_, ?_, ?_⟩
  · rcases tuneFrequency_fst d s with h | h
    · rw [h]; exact hinv
    · rw [h]
      unfold freqInv
      exact ⟨le_max_left _ _,
        max_le (band_min_le_max s.service_type) (min_le_left _ _)⟩
  · by_cases hsq : measValue m > (s.squelch_level : ℝ)
    · rw [autoScan_hold m rOk s hsq]
      exact (freqInv_applyMeas m s).mpr hinv
    · rw [autoScan_advance m rOk s hsq]
      obtain ⟨h1, h2⟩ := hinv
      have hstep := band_step_pos s.service_type
      simp only [freqInv, applyMeas_service_type]
      split_ifs with hw
      · exact ⟨le_refl _, band_min_le_max s.service_type⟩
      · have hw2 := le_of_not_lt hw
        constructor
        · linarith
        · linarith
  · unfold cycleServiceType freqInv
    dsimp only
    exact ⟨le_refl _, band_min_le_max _⟩
  · rcases hPb : P s.preset_bank with _ | ps
    · rw [presetScan_no_bank P m rOk s hPb]; exact hinv
    · by_cases hps : ps.length = 0
      · have hnil : ps = [] := List.length_eq_zero.mp hps
        subst hnil
        rw [presetScan_empty_bank P m rOk s hPb]
        exact hinv
      · by_cases hsq : measValue m > (s.squelch_level : ℝ)
        · rw [presetScan_hold P m rOk s ps hPb hps hsq]
          exact (freqInv_applyMeas m s).mpr hinv
        · rw [presetScan_advance_eq P m rOk s ps hPb hps hsq]
          have hmem := List.get_mem ps ((s.current_preset + 1) % ps.length)
            (Nat.mod_lt _ (Nat.pos_of_ne_zero hps))
          have hb := hbank ps hPb _ hmem
          simp only [freqInv, applyMeas_service_type]
          exact hb

/-- Witness for C1 amended: from the default state, a manual tune up, an
auto-scan tick, a service-type cycle and an unoccupied preset-scan tick
over the in-band default FM bank all keep the frequency inside the active
band. -/
theorem C1_freq_invariant_amended_witness :
    freqInv (tuneFrequency 1 initState).1 ∧
    freqInv (autoScan Meas.fail true initState).1 ∧
    freqInv (cycleServiceType initState).1 ∧
    freqInv (presetScan presets0 Meas.fail true initState).1 := by
  refine C1_freq_invariant_amended initState 1 Meas.fail true presets0 ?_ ?_
  · norm_num [freqInv, initState, SERVICE_RANGES]
  · intro ps hps p hp
    rw [show presets0 initState.preset_bank = Option.some fmBank from rfl]
      at hps
    injection hps with hps
    subst hps
    fin_cases hp <;> norm_num [initState, SERVICE_RANGES, fmBank]

/-- Claim C5: the meter computes the mean power P of the chunk; when P is
positive the returned strength is clamp((10 * log10 P + 30) + 100, 0, 100),
when P is zero the returned strength is exactly 0, and in all cases the
result lies in [0, 100]. -/
theorem C5_signal_meter (chunk : List ℂ) :
    (meanPower chunk > 0 →
      signalStrengthOf chunk =
        max 0 (min 100 ((10 * Real.logb 10 (meanPower chunk) + 30) + 100))) ∧
    (meanPower chunk = 0 → signalStrengthOf chunk = 0) ∧
    0 ≤ signalStrengthOf chunk ∧ signalStrengthOf chunk ≤ 100 := by
  refine ⟨fun h => ?_, fun h => ?_, ?_⟩
  · simp only [signalStrengthOf]
    rw [if_pos h]
  · simp only [signalStrengthOf]
    rw [if_neg (by rw [h]; exact lt_irrefl 0)]
  · simp only [signalStrengthOf]
    split_ifs with h
    · constructor
      · exact le_max_left 0 _
      · exact max_le (by norm_num) (min_le_left _ _)
    · norm_num

/-- Witness for C5: the chunk [1] has mean power 1, and the meter reports
clamp((10 * log10 1 + 30) + 100, 0, 100) = 100. -/
theorem C5_signal_meter_witness :
    meanPower [(1 : ℂ)] = 1 ∧ signalStrengthOf [(1 : ℂ)] = 100 := by
  have h : meanPower [(1 : ℂ)] = 1 := by
    simp [meanPower]
  refine ⟨h, ?_⟩
  have h2 := (C5_signal_meter [(1 : ℂ)]).1 (by rw [h]; norm_num)
  rw [h2, h, Real.logb_one]
  norm_num

/-- Claim C4 fails on the code: _audio_worker scales each demodulated
sample by volume/100 but never clamps; a demodulated value of 3 (an
in-range FM deviation, 3 < pi) at volume 100 emits 3, outside [-1, 1], and
its int16 conversion wraps (the stored value differs from the true
truncation 98301). -/
theorem C4_no_clamp_counterexample :
    audioVolumeScale 100 3 = 3 ∧
    clampUnit (audioVolumeScale 100 3) = 1 ∧
    ¬ audioVolumeScale 100 3 ≤ 1 ∧
    pcmInt16 100 3 ≠ truncToInt (audioVolumeScale 100 3 * 32767) := by
  have h : audioVolumeScale 100 3 = 3 := by
    norm_num [audioVolumeScale]
  have ht : truncToInt (audioVolumeScale 100 3 * 32767) = 98301 := by
    rw [h]
    unfold truncToInt
    rw [if_pos (by norm_num)]
    rw [show (3 : ℝ) * 32767 = ((98301 : ℤ) : ℝ) by norm_num]
    exact Int.floor_intCast 98301
  refine ⟨h, ?_, ?_, ?_⟩
  · rw [h]
    unfold clampUnit
    norm_num
  · rw [h]
    norm_num
  · unfold pcmInt16
    rw [ht]
    decide

/-- Claim C4 amended: the emitted sample is the demodulated value scaled by
volume/100 with no clamping; whenever that scaled value does lie in
[-1, 1], the int16 conversion does not wrap and lands in [-32767, 32767]. -/
theorem C4_pcm_in_range_amended (v : ℤ) (x : ℝ)
    (h1 : -1 ≤ audioVolumeScale v x) (h2 : audioVolumeScale v x ≤ 1) :
    pcmInt16 v x = truncToInt (audioVolumeScale v x * 32767) ∧
    -32767 ≤ pcmInt16 v x ∧ pcmInt16 v x ≤ 32767 := by
  have hyl : (-32767 : ℝ) ≤ audioVolumeScale v x * 32767 := by nlinarith
  have hyu : audioVolumeScale v x * 32767 ≤ 32767 := by nlinarith
  have htl : -32767 ≤ truncToInt (audioVolumeScale v x * 32767) ∧
      truncToInt (audioVolumeScale v x * 32767) ≤ 32767 := by
    unfold truncToInt
    split_ifs with h
    · constructor
      · exact Int.le_floor.mpr (by exact_mod_cast hyl)
      · have hf : ⌊audioVolumeScale v x * 32767⌋ ≤ ⌊((32767 : ℤ) : ℝ)⌋ :=
          Int.floor_le_floor (by exact_mod_cast hyu)
        rw [Int.floor_intCast] at hf
        exact hf
    · constructor
      · have hc : ⌈((-32767 : ℤ) : ℝ)⌉ ≤ ⌈audioVolumeScale v x * 32767⌉ :=
          Int.ceil_le_ceil (by exact_mod_cast hyl)
        rw [Int.ceil_intCast] at hc
        exact hc
      · exact Int.ceil_le.mpr (by exact_mod_cast hyu)
  obtain ⟨ha, hb⟩ := htl
  unfold pcmInt16 wrapInt16
  omega

/-- Witness for C4 amended: at volume 100 a demodulated sample of 1 scales
to 1, converts without wrap to 32767, inside the int16 range. -/
theorem C4_pcm_in_range_witness :
    -1 ≤ audioVolumeScale 100 1 ∧ audioVolumeScale 100 1 ≤ 1 ∧
    -32767 ≤ pcmInt16 100 1 ∧ pcmInt16 100 1 ≤ 32767 := by
  have h1 : (-1 : ℝ) ≤ audioVolumeScale 100 1 := by
    norm_num [audioVolumeScale]
  have h2 : audioVolumeScale 100 1 ≤ 1 := by
    norm_num [audioVolumeScale]
  have h := C4_pcm_in_range_amended 100 1 h1 h2
  exact ⟨h1, h2, h.2.1, h.2.2⟩

lemma unwrapStep_small (d : ℝ) (h1 : -Real.pi < d) (h2 : d < Real.pi) :
    unwrapStep d = d := by
  unfold unwrapStep
  rw [if_pos (abs_lt.mpr ⟨h1, h2⟩)]

lemma fmDeviation_one_I : fmDeviation [1, Complex.I] = [Real.pi / 2] := by
  have hπ := Real.pi_pos
  have hs : unwrapStep (Real.pi / 2 - 0) = Real.pi / 2 - 0 :=
    unwrapStep_small _ (by linarith) (by linarith)
  simp only [fmDeviation, List.map_cons, List.map_nil, Complex.arg_one,
    Complex.arg_I, npUnwrap, npUnwrapGo, npDiff, hs]
  norm_num

lemma one_sub_deemphAlpha_pos : 0 < 1 - deemphAlpha := by
  unfold deemphAlpha
  have := Real.exp_pos (-1 / (AUDIO_RATE * deemphTau))
  linarith

/-- Claim C3 amended: the code carries no cross-chunk unwrap state; each
chunk is unwrapped from its own raw angles. Because differencing the
unwrapped phase equals wrapping each raw angle difference, demodulating two
chunks produces exactly the concatenated-chunk demodulation with the seam
sample (the wrapped angle step across the boundary) omitted: no spurious
2-pi discontinuity appears, but the output is one sample short per
boundary. -/
theorem C3_fm_chunk_seam (a : ℂ) (as : List ℂ) (b : ℂ) (bs : List ℂ) :
    fmDeviation ((a :: as) ++ b :: bs) =
      fmDeviation (a :: as) ++
        unwrapStep (Complex.arg b -
          Complex.arg ((a :: as).getLast (List.cons_ne_nil a as))) ::
          fmDeviation (b :: bs) := by
  unfold fmDeviation
  rw [List.map_append, npDiff_npUnwrap, npDiff_npUnwrap, npDiff_npUnwrap,
    List.map_cons, List.map_cons, npDiff_append, List.map_append,
    List.map_cons, getLast_map_arg]

/-- Claim C3 fails as stated: demodulating two chunks does not equal
demodulating the concatenated chunk sample for sample, already on constant
unit samples, since the seam sample is missing (lengths 3 versus 2). -/
theorem C3_two_chunk_counterexample :
    fmDeviation (([1, 1] : List ℂ) ++ [1, 1]) ≠
      fmDeviation ([1, 1] : List ℂ) ++ fmDeviation ([1, 1] : List ℂ) := by
  intro h
  have hl := congrArg List.length h
  rw [fmDeviation_length, List.length_append, List.length_append,
    fmDeviation_length] at hl
  simp at hl

/-- Claim C9 fails as stated: NFM is not the FM pipeline with the deviation
halved before decimation, because NFM omits the de-emphasis stage; on the
two-sample chunk [1, i] (deviation pi/2) the code output [pi/4] differs
from the spec pipeline output [alpha * pi/4]. -/
theorem C9_nfm_counterexample :
    demodulateNfm id [1, Complex.I] ≠ demodulateNfmSpec id [1, Complex.I] := by
  unfold demodulateNfm demodulateNfmSpec
  rw [fmDeviation_one_I]
  simp only [List.map_cons, List.map_nil, id_eq, lfilterDeemph]
  intro h
  rw [List.cons.injEq] at h
  have h1 := h.1
  have hα := one_sub_deemphAlpha_pos
  have hπ := Real.pi_pos
  nlinarith [h1, hα, hπ]

/-- Claim C9 amended: NFM equals the FM pipeline with the differentiated
deviation scaled by 0.5 before decimation but with the de-emphasis stage
omitted: the spec pipeline is exactly the de-emphasis filter applied to the
code output, and whenever the decimated halved deviation is a nonzero
signal (nonzero first sample) the two outputs differ. -/
theorem C9_nfm_missing_deemph (dec : List ℝ → List ℝ) (samples : List ℂ)
    (c : ℝ) (rest : List ℝ)
    (hd : dec ((fmDeviation samples).map (fun d => d * (1 / 2))) = c :: rest)
    (hc : c ≠ 0) :
    demodulateNfmSpec dec samples =
      lfilterDeemph deemphAlpha 0 (demodulateNfm dec samples) ∧
    demodulateNfm dec samples ≠ demodulateNfmSpec dec samples := by
  refine ⟨rfl, ?_⟩
  unfold demodulateNfm demodulateNfmSpec
  rw [hd]
  simp only [lfilterDeemph]
  intro h
  rw [List.cons.injEq] at h
  have h1 := h.1
  have hα := one_sub_deemphAlpha_pos
  have h2 : (1 - deemphAlpha) * c = 0 := by linear_combination h1
  rcases mul_eq_zero.mp h2 with h3 | h3
  · linarith
  · exact hc h3

/-- Witness for C9 amended: with the identity in place of the external
decimator and the chunk [1, i], the halved deviation is the nonzero signal
[pi/4], and the code output differs from the spec pipeline output. -/
theorem C9_nfm_missing_deemph_witness :
    id ((fmDeviation [1, Complex.I]).map (fun d => d * (1 / 2))) =
      [Real.pi / 2 * (1 / 2)] ∧
    Real.pi / 2 * (1 / 2) ≠ 0 ∧
    demodulateNfm id [1, Complex.I] ≠ demodulateNfmSpec id [1, Complex.I] := by
  have h1 : id ((fmDeviation [1, Complex.I]).map (fun d => d * (1 / 2))) =
      [Real.pi / 2 * (1 / 2)] := by
    rw [fmDeviation_one_I]
    simp
  have h2 : Real.pi / 2 * (1 / 2) ≠ 0 := by positivity
  exact ⟨h1, h2,
    (C9_nfm_missing_deemph id [1, Complex.I] (Real.pi / 2 * (1 / 2)) [] h1
      h2).2⟩
